import Mathlib

/-!
# Verification of the Lightware SF40/c protocol library

Shallow embedding of `src/lightwareSF40.c` / `src/lightwareSF40.h`:
the custom 16-bit checksum (`createCRC`), the packet reader (`getPacket`),
the frame encoder used by `writeCommand`, the polling transaction loop of
`readCommand`, the stream decoder (`getStream`), and the voltage payload
extraction of `getVoltage`.

Machine integers are modelled as `Nat` with explicit `% 2^w` truncation at
every store into a fixed-width C object; `int16_t`/`int` values that can be
negative are modelled as `Int` via the explicit conversions `uint16OfInt` /
`int16OfNat`.  Byte buffers written by the code are modelled as the list of
bytes written contiguously from index 0 (`readBuf` reads them back with the
zero default matching the zero-initialised C buffers where that matters).
-/

/-- `STARTBIT` from `lightwareSF40.h` (line 12): the frame start marker. -/
def STARTBIT : ℕ := 0xAA

/-- `MAX_RESPONSE_SIZE` from `lightwareSF40.h` (line 11). -/
def MAX_RESPONSE_SIZE : ℕ := 1028

/-- `LIDAR_DISTANCE_OUTPUT` from `lightwareSF40.h` (line 27): the
command id of unsolicited distance-stream frames. -/
def LIDAR_DISTANCE_OUTPUT : ℕ := 48

/-- Capacity of the `pointDistances` array of `streamOutput_t`
(`lightwareSF40.h` line 93: `int16_t pointDistances[200]`). -/
def POINT_DISTANCES_CAPACITY : ℕ := 200

/-! ## The checksum (`createCRC`, `lightwareSF40.c` lines 36-50) -/

/-- One iteration of the loop body of `createCRC` (lines 39-47).  Every
assignment stores into a `uint16_t`, hence the `% 65536` after each store;
`b` is a `uint8_t` array element. -/
def crcStep (crc b : ℕ) : ℕ :=
  let code := (crc >>> 8) % 65536
  let code := (code ^^^ b) % 65536
  let code := (code ^^^ (code >>> 4)) % 65536
  let crc2 := (crc <<< 8) % 65536
  let crc2 := (crc2 ^^^ code) % 65536
  let code := (code <<< 5) % 65536
  let crc2 := (crc2 ^^^ code) % 65536
  let code := (code <<< 7) % 65536
  (crc2 ^^^ code) % 65536

/-- `createCRC(data, size)`: fold the loop body over the bytes, starting
from `crc = 0` (line 37). -/
def createCRC (data : List ℕ) : ℕ := data.foldl crcStep 0

/-- Reference step from the specification (spec.md §4.1): for each input
byte `b`, `code = (crc >> 8) ^ b; code ^= code >> 4; crc = (crc << 8) ^ code;
code <<= 5; crc ^= code; code <<= 7; crc ^= code`, all arithmetic on 16-bit
unsigned words (values beyond 16 bits discarded). -/
def crcStepSpec (crc b : ℕ) : ℕ :=
  let code := ((crc >>> 8) ^^^ b) % 65536
  let code := (code ^^^ (code >>> 4)) % 65536
  let crc2 := ((crc <<< 8) ^^^ code) % 65536
  let code := (code <<< 5) % 65536
  let crc2 := (crc2 ^^^ code) % 65536
  let code := (code <<< 7) % 65536
  (crc2 ^^^ code) % 65536

/-- Reference checksum from the specification: start from `crc = 0` and
process the input bytes in order with `crcStepSpec`. -/
def createCRCSpec (data : List ℕ) : ℕ := data.foldl crcStepSpec 0

/-! ## Bit-manipulation helper lemmas -/

theorem xor_mod_two_pow (a b n : ℕ) :
    (a ^^^ b) % 2 ^ n = a % 2 ^ n ^^^ b % 2 ^ n := by
  apply Nat.eq_of_testBit_eq
  intro i
  simp only [Nat.testBit_mod_two_pow, Nat.testBit_xor]
  cases h : decide (i < n) <;> simp

theorem xor_mod65536 (a b : ℕ) :
    (a ^^^ b) % 65536 = a % 65536 ^^^ b % 65536 := by
  have h : (65536 : ℕ) = 2 ^ 16 := by norm_num
  rw [h]; exact xor_mod_two_pow a b 16

theorem xor_mod_left (a b : ℕ) :
    (a % 65536 ^^^ b) % 65536 = (a ^^^ b) % 65536 := by
  rw [xor_mod65536 (a % 65536) b, xor_mod65536 a b,
    Nat.mod_mod_of_dvd a dvd_rfl]

theorem xor_mod_right (a b : ℕ) :
    (a ^^^ b % 65536) % 65536 = (a ^^^ b) % 65536 := by
  rw [xor_mod65536 a (b % 65536), xor_mod65536 a b,
    Nat.mod_mod_of_dvd b dvd_rfl]

theorem crcStep_eq_spec (crc b : ℕ) : crcStep crc b = crcStepSpec crc b := by
  unfold crcStep crcStepSpec
  simp only [xor_mod_left, xor_mod_right]

theorem createCRC_eq_spec_aux (data : List ℕ) (crc : ℕ) :
    data.foldl crcStep crc = data.foldl crcStepSpec crc := by
  induction data generalizing crc with
  | nil => rfl
  | cons b bs ih => simp only [List.foldl_cons, crcStep_eq_spec, ih]

/-- C1: `createCRC`, starting from `crc = 0` and processing the input bytes
in order, equals the reference per-byte update sequence of the
specification (16-bit arithmetic, values beyond 16 bits discarded) on every
byte sequence. -/
theorem createCRC_eq_spec (data : List ℕ) : createCRC data = createCRCSpec data :=
  createCRC_eq_spec_aux data 0

/-! ## Integer conversions -/

/-- C conversion of an `int` value to `uint16_t`: reduce modulo `2^16`. -/
def uint16OfInt (i : Int) : ℕ := (i % 65536).toNat

/-- C conversion of a value to `int16_t`: wrap modulo `2^16` into
`[-32768, 32767]`. -/
def int16OfNat (n : ℕ) : Int :=
  if n % 65536 < 32768 then ((n % 65536 : ℕ) : Int)
  else ((n % 65536 : ℕ) : Int) - 65536

/-! ## More bit lemmas -/

theorem crcStep_lt (crc b : ℕ) : crcStep crc b < 65536 :=
  Nat.mod_lt _ (by norm_num)

theorem createCRC_lt (data : List ℕ) : createCRC data < 65536 := by
  have aux : ∀ (l : List ℕ) (crc : ℕ), crc < 65536 → l.foldl crcStep crc < 65536 := by
    intro l
    induction l with
    | nil => intro crc h; exact h
    | cons b bs ih => intro crc _; exact ih (crcStep crc b) (crcStep_lt crc b)
  exact aux data 0 (by norm_num)

/-- Splitting a 16-bit word into its low byte and remaining high bits and
reassembling them little-endian gives the word back. -/
theorem lo_hi_or (s : ℕ) : s % 256 ||| (s >>> 8) <<< 8 = s := by
  have h256 : (256 : ℕ) = 2 ^ 8 := by norm_num
  apply Nat.eq_of_testBit_eq
  intro i
  rw [h256]
  simp only [Nat.testBit_or, Nat.testBit_mod_two_pow, Nat.testBit_shiftLeft,
    Nat.testBit_shiftRight]
  by_cases h : i < 8
  · have h2 : ¬(8 ≤ i) := by omega
    simp [h, h2]
  · have h2 : 8 ≤ i := by omega
    have h3 : 8 + (i - 8) = i := by omega
    simp [h, h2, h3]

/-! ## List helper lemmas -/

theorem rangeMap_getD (xs ys : List ℕ) :
    (List.range xs.length).map (fun i => (xs ++ ys).getD i 0) = xs := by
  apply List.ext_getElem
  · simp
  · intro i h1 h2
    simp only [List.getElem_map, List.getElem_range]
    rw [List.getD_append xs ys 0 i h2, List.getD_eq_getElem xs 0 h2]

theorem rangeMap_getD_self (xs : List ℕ) :
    (List.range xs.length).map (fun i => xs.getD i 0) = xs := by
  have h := rangeMap_getD xs []
  simpa using h

/-! ## The packet reader (`getPacket`, `lightwareSF40.c` lines 63-87)

The byte source is modelled as the list of bytes that the serial buffer
will deliver; `readByte` consumes them in order.  If the source is
exhausted mid-packet the C code blocks forever inside `readByte`, which we
model as `none`.  The local `payload` buffer is modelled as the list of
bytes the call writes contiguously from index 0 (`written`). -/

/-- Result of one `getPacket` call: the `int16_t` return value, the bytes
written into the caller's `payload` buffer (contiguous from index 0), and
the bytes left unconsumed in the serial buffer. -/
structure GPOut where
  ret : Int
  written : List ℕ
  rest : List ℕ
deriving DecidableEq

/-- `getPacket(payload)`: read 3 bytes; assemble the header word
little-endian (line 72); reject a bad start byte (-1, line 75) or an
out-of-range `pay_len` (-2, line 76); read `pay_len + 2` further bytes
(lines 78-80); compare the trailing checksum with `createCRC` over the
first `3 + pay_len` buffer bytes (lines 82-86).  The `pay_len` bitfield of
`flag_t` occupies bits 6-15 of the header word (`rw` is bit 0, then 5
unnamed bits), following the little-endian GCC bitfield layout the source
relies on. -/
def getPacket (src : List ℕ) : Option GPOut :=
  match src with
  | b0 :: b1 :: b2 :: rest =>
    let sr := b1 ||| b2 <<< 8
    let payLen := (sr >>> 6) % 1024
    if b0 ≠ STARTBIT then some ⟨-1, [b0, b1, b2], rest⟩
    else if payLen < 1 ∨ MAX_RESPONSE_SIZE - 5 < payLen then
      some ⟨-2, [b0, b1, b2], rest⟩
    else if payLen + 2 ≤ rest.length then
      let body := rest.take (payLen + 2)
      let written := b0 :: b1 :: b2 :: body
      let crc := written.getD (payLen + 3) 0 ||| (written.getD (payLen + 4) 0) <<< 8
      if crc = createCRC ((List.range (3 + payLen)).map fun i => written.getD i 0)
      then some ⟨((payLen : ℕ) : Int), written, rest.drop (payLen + 2)⟩
      else some ⟨-3, written, rest.drop (payLen + 2)⟩
    else none
  | _ => none

/-- The wire frame built by `writeCommand` (lines 174-188):
`[STARTBIT, sr & 0xFF, sr >> 8, command, payload..., crcLo, crcHi]`.
The header word `sr` is the `flag_t` bitfield with `rw` in bit 0,
`pay_len = 1 + data_len` in bits 6-15 (10-bit field, so stored mod 1024),
and five unnamed bits in between which the source never assigns — they are
taken here as the parameter `reserved`.  `readCommand` (lines 107-113)
builds the same frame with `rw = 0` and an empty payload. -/
def encodeFrame (rw reserved cmd : ℕ) (pl : List ℕ) : List ℕ :=
  let sr := rw % 2 + 2 * (reserved % 32) + 64 * ((1 + pl.length) % 1024)
  let pre := STARTBIT :: sr % 256 :: (sr >>> 8) % 256 :: cmd :: pl
  pre ++ [createCRC pre % 256, (createCRC pre >>> 8) % 256]

/-- Decoding a syntactically explicit well-formed frame: workhorse lemma. -/
theorem getPacket_frame (sr cmd : ℕ) (pl : List ℕ) (hsr : sr < 65536)
    (hpay : (sr >>> 6) % 1024 = 1 + pl.length)
    (crcLo crcHi : ℕ)
    (hlo : crcLo = createCRC (STARTBIT :: sr % 256 :: (sr >>> 8) % 256 :: cmd :: pl) % 256)
    (hhi : crcHi = (createCRC (STARTBIT :: sr % 256 :: (sr >>> 8) % 256 :: cmd :: pl) >>> 8) % 256) :
    getPacket (STARTBIT :: sr % 256 :: (sr >>> 8) % 256 :: cmd :: (pl ++ [crcLo, crcHi])) =
      some ⟨((1 + pl.length : ℕ) : Int),
            STARTBIT :: sr % 256 :: (sr >>> 8) % 256 :: cmd :: (pl ++ [crcLo, crcHi]), []⟩ := by
  have hb2 : (sr >>> 8) % 256 = sr >>> 8 := by
    apply Nat.mod_eq_of_lt
    rw [Nat.shiftRight_eq_div_pow]
    omega
  have hor : sr % 256 ||| ((sr >>> 8) % 256) <<< 8 = sr := by
    rw [hb2]; exact lo_hi_or sr
  have hrestlen : (cmd :: (pl ++ [crcLo, crcHi])).length = pl.length + 3 := by
    simp
  unfold getPacket
  simp only [hor, hpay]
  have hstart : ¬(STARTBIT ≠ STARTBIT) := by simp
  rw [if_neg hstart]
  have hrange : ¬(1 + pl.length < 1 ∨ MAX_RESPONSE_SIZE - 5 < 1 + pl.length) := by
    unfold MAX_RESPONSE_SIZE
    omega
  rw [if_neg hrange]
  have hread : 1 + pl.length + 2 ≤ (cmd :: (pl ++ [crcLo, crcHi])).length := by
    rw [hrestlen]; omega
  rw [if_pos hread]
  have htake : (cmd :: (pl ++ [crcLo, crcHi])).take (1 + pl.length + 2)
      = cmd :: (pl ++ [crcLo, crcHi]) := by
    apply List.take_of_length_le
    rw [hrestlen]; omega
  have hdrop : (cmd :: (pl ++ [crcLo, crcHi])).drop (1 + pl.length + 2) = [] := by
    apply List.drop_eq_nil_of_le
    rw [hrestlen]; omega
  rw [htake, hdrop]
  have hwshape : STARTBIT :: sr % 256 :: (sr >>> 8) % 256 :: cmd :: (pl ++ [crcLo, crcHi])
      = (STARTBIT :: sr % 256 :: (sr >>> 8) % 256 :: cmd :: pl) ++ [crcLo, crcHi] := by
    simp
  have hprelen : (STARTBIT :: sr % 256 :: (sr >>> 8) % 256 :: cmd :: pl).length
      = 4 + pl.length := by simp; omega
  have hgetlo : (STARTBIT :: sr % 256 :: (sr >>> 8) % 256 :: cmd :: (pl ++ [crcLo, crcHi])).getD
      (1 + pl.length + 3) 0 = crcLo := by
    rw [hwshape, List.getD_append_right _ _ _ _ (by rw [hprelen]; omega)]
    rw [hprelen]
    have : 1 + pl.length + 3 - (4 + pl.length) = 0 := by omega
    rw [this]
    rfl
  have hgethi : (STARTBIT :: sr % 256 :: (sr >>> 8) % 256 :: cmd :: (pl ++ [crcLo, crcHi])).getD
      (1 + pl.length + 4) 0 = crcHi := by
    rw [hwshape, List.getD_append_right _ _ _ _ (by rw [hprelen]; omega)]
    rw [hprelen]
    have : 1 + pl.length + 4 - (4 + pl.length) = 1 := by omega
    rw [this]
    rfl
  rw [hgetlo, hgethi]
  have hcrcv : createCRC (STARTBIT :: sr % 256 :: (sr >>> 8) % 256 :: cmd :: pl) < 65536 :=
    createCRC_lt _
  have hcrcor : crcLo ||| crcHi <<< 8
      = createCRC (STARTBIT :: sr % 256 :: (sr >>> 8) % 256 :: cmd :: pl) := by
    rw [hlo, hhi]
    have hhimod : (createCRC (STARTBIT :: sr % 256 :: (sr >>> 8) % 256 :: cmd :: pl) >>> 8) % 256
        = createCRC (STARTBIT :: sr % 256 :: (sr >>> 8) % 256 :: cmd :: pl) >>> 8 := by
      apply Nat.mod_eq_of_lt
      rw [Nat.shiftRight_eq_div_pow]
      omega
    rw [hhimod]
    exact lo_hi_or _
  have hcrcin : (List.range (3 + (1 + pl.length))).map
      (fun i => (STARTBIT :: sr % 256 :: (sr >>> 8) % 256 :: cmd :: (pl ++ [crcLo, crcHi])).getD i 0)
      = STARTBIT :: sr % 256 :: (sr >>> 8) % 256 :: cmd :: pl := by
    rw [hwshape]
    have h4 : 3 + (1 + pl.length)
        = (STARTBIT :: sr % 256 :: (sr >>> 8) % 256 :: cmd :: pl).length := by
      rw [hprelen]; omega
    rw [h4]
    exact rangeMap_getD _ _
  rw [hcrcin, hcrcor]
  simp

/-- `getPacket` decodes every frame produced by the `writeCommand` encoder
whose encoded `pay_len = 1 + payload.length` is in range, returning
`pay_len`, the full frame in the buffer, and an empty remainder. -/
theorem getPacket_encodeFrame (rw reserved cmd : ℕ) (pl : List ℕ)
    (hlen : pl.length ≤ 1022) :
    getPacket (encodeFrame rw reserved cmd pl) =
      some ⟨((1 + pl.length : ℕ) : Int), encodeFrame rw reserved cmd pl, []⟩ := by
  have hL : (1 + pl.length) % 1024 = 1 + pl.length := Nat.mod_eq_of_lt (by omega)
  have hsr : rw % 2 + 2 * (reserved % 32) + 64 * ((1 + pl.length) % 1024) < 65536 := by
    omega
  have hpay : ((rw % 2 + 2 * (reserved % 32) + 64 * ((1 + pl.length) % 1024)) >>> 6) % 1024
      = 1 + pl.length := by
    rw [Nat.shiftRight_eq_div_pow]
    have h64 : (2 : ℕ) ^ 6 = 64 := by norm_num
    rw [h64]
    omega
  have h := getPacket_frame (rw % 2 + 2 * (reserved % 32) + 64 * ((1 + pl.length) % 1024))
    cmd pl hsr hpay _ _ rfl rfl
  have hshape : encodeFrame rw reserved cmd pl
      = STARTBIT :: (rw % 2 + 2 * (reserved % 32) + 64 * ((1 + pl.length) % 1024)) % 256 ::
        ((rw % 2 + 2 * (reserved % 32) + 64 * ((1 + pl.length) % 1024)) >>> 8) % 256 ::
        cmd :: (pl ++
          [createCRC (STARTBIT ::
              (rw % 2 + 2 * (reserved % 32) + 64 * ((1 + pl.length) % 1024)) % 256 ::
              ((rw % 2 + 2 * (reserved % 32) + 64 * ((1 + pl.length) % 1024)) >>> 8) % 256 ::
              cmd :: pl) % 256,
           (createCRC (STARTBIT ::
              (rw % 2 + 2 * (reserved % 32) + 64 * ((1 + pl.length) % 1024)) % 256 ::
              ((rw % 2 + 2 * (reserved % 32) + 64 * ((1 + pl.length) % 1024)) >>> 8) % 256 ::
              cmd :: pl) >>> 8) % 256]) := by
    unfold encodeFrame
    simp
  rw [hshape]
  exact h

/-! ## Decoded frame fields -/

/-- Command id of a decoded packet: buffer byte 3 (compared at line 142 /
line 216, read at line 453). -/
def GPOut.commandId (g : GPOut) : ℕ := g.written.getD 3 0

/-- The `rw` flag of a decoded packet: bit 0 of the header word
reassembled little-endian at line 72 (`flag_t` bitfield layout). -/
def GPOut.direction (g : GPOut) : ℕ :=
  (g.written.getD 1 0 ||| (g.written.getD 2 0) <<< 8) % 2

/-- The payload data bytes of a decoded packet: the `pay_len - 1` bytes
following the command id (buffer bytes 4 .. pay_len + 2). -/
def GPOut.payloadData (g : GPOut) : List ℕ :=
  (List.range (uint16OfInt g.ret - 1)).map fun i => g.written.getD (i + 4) 0

theorem getD_cons4_append (a b c d : ℕ) (pl extra : List ℕ) (i : ℕ)
    (h : i < pl.length) :
    (a :: b :: c :: d :: (pl ++ extra)).getD (i + 4) 0 = pl.getD i 0 := by
  have hsplit : (a :: b :: c :: d :: (pl ++ extra)) = [a, b, c, d] ++ (pl ++ extra) := rfl
  rw [hsplit, List.getD_append_right _ _ _ _ (by simp)]
  have h4 : i + 4 - ([a, b, c, d] : List ℕ).length = i := by simp
  rw [h4, List.getD_append _ _ _ _ h]

theorem uint16OfInt_ofNat (n : ℕ) (h : n < 65536) : uint16OfInt ((n : ℕ) : Int) = n := by
  unfold uint16OfInt
  omega

/-- C2: for every command id, direction flag and payload whose encoded
`pay_len = payload.length + 1` lies in `[1, MAX_RESPONSE_SIZE - 5]`,
decoding the bytes produced by the `writeCommand` frame encoder succeeds
(no error: positive return) and yields back the same command id, direction
and payload, consuming the frame exactly. -/
theorem encode_decode_roundtrip (rw reserved cmd : ℕ) (pl : List ℕ)
    (hrw : rw < 2) (_hcmd : cmd < 256)
    (hlen : 1 + pl.length ≤ MAX_RESPONSE_SIZE - 5) :
    ∃ g : GPOut,
      getPacket (encodeFrame rw reserved cmd pl) = some g ∧
      g.ret = ((1 + pl.length : ℕ) : Int) ∧ 0 < g.ret ∧
      g.commandId = cmd ∧ g.direction = rw ∧ g.payloadData = pl ∧ g.rest = [] := by
  have hlen2 : pl.length ≤ 1022 := by
    unfold MAX_RESPONSE_SIZE at hlen
    omega
  refine ⟨⟨((1 + pl.length : ℕ) : Int), encodeFrame rw reserved cmd pl, []⟩,
    getPacket_encodeFrame rw reserved cmd pl hlen2, rfl, by positivity, ?_, ?_, ?_, rfl⟩
  · -- commandId
    unfold GPOut.commandId encodeFrame
    simp [List.getD_cons_succ, List.getD_cons_zero]
  · -- direction
    unfold GPOut.direction encodeFrame
    simp only [List.cons_append, List.getD_cons_succ, List.getD_cons_zero]
    have hsr : rw % 2 + 2 * (reserved % 32) + 64 * ((1 + pl.length) % 1024) < 65536 := by
      omega
    have hb2 : ((rw % 2 + 2 * (reserved % 32) + 64 * ((1 + pl.length) % 1024)) >>> 8) % 256
        = (rw % 2 + 2 * (reserved % 32) + 64 * ((1 + pl.length) % 1024)) >>> 8 := by
      apply Nat.mod_eq_of_lt
      rw [Nat.shiftRight_eq_div_pow]
      omega
    rw [hb2, lo_hi_or]
    omega
  · -- payload
    unfold GPOut.payloadData
    simp only []
    rw [uint16OfInt_ofNat (1 + pl.length) (by omega)]
    have hn : 1 + pl.length - 1 = pl.length := by omega
    rw [hn]
    apply List.ext_getElem
    · simp
    · intro i h1 h2
      simp only [List.getElem_map, List.getElem_range]
      have hi : i < pl.length := by simpa using h1
      have hshape : encodeFrame rw reserved cmd pl
          = STARTBIT :: (rw % 2 + 2 * (reserved % 32) + 64 * ((1 + pl.length) % 1024)) % 256 ::
            ((rw % 2 + 2 * (reserved % 32) + 64 * ((1 + pl.length) % 1024)) >>> 8) % 256 ::
            cmd :: (pl ++
              [createCRC (STARTBIT ::
                  (rw % 2 + 2 * (reserved % 32) + 64 * ((1 + pl.length) % 1024)) % 256 ::
                  ((rw % 2 + 2 * (reserved % 32) + 64 * ((1 + pl.length) % 1024)) >>> 8) % 256 ::
                  cmd :: pl) % 256,
               (createCRC (STARTBIT ::
                  (rw % 2 + 2 * (reserved % 32) + 64 * ((1 + pl.length) % 1024)) % 256 ::
                  ((rw % 2 + 2 * (reserved % 32) + 64 * ((1 + pl.length) % 1024)) >>> 8) % 256 ::
                  cmd :: pl) >>> 8) % 256]) := by
        unfold encodeFrame
        simp
      rw [hshape, getD_cons4_append _ _ _ _ _ _ _ hi, List.getD_eq_getElem pl 0 hi]

/-- Witness for C2 at a concrete frame: command 3, write direction,
payload bytes `[7, 42]`. -/
theorem encode_decode_roundtrip_witness :
    (1 : ℕ) < 2 ∧ (3 : ℕ) < 256 ∧ 1 + ([7, 42] : List ℕ).length ≤ MAX_RESPONSE_SIZE - 5 ∧
    ∃ g : GPOut,
      getPacket (encodeFrame 1 0 3 [7, 42]) = some g ∧
      g.ret = ((1 + ([7, 42] : List ℕ).length : ℕ) : Int) ∧ 0 < g.ret ∧
      g.commandId = 3 ∧ g.direction = 1 ∧ g.payloadData = [7, 42] ∧ g.rest = [] :=
  ⟨by norm_num, by norm_num, by decide,
    encode_decode_roundtrip 1 0 3 [7, 42] (by norm_num) (by norm_num) (by decide)⟩

/-! ## Header-word payload length (claims C3 / C8) -/

/-- The 16-bit header word the `flag_t` bitfield produces for a given `rw`
flag, reserved bits and `pay_len` field value `v` (stored mod 1024 into the
10-bit field at bits 6-15; `rw` at bit 0). -/
def headerWordFor (rw reserved v : ℕ) : ℕ :=
  rw % 2 + 2 * (reserved % 32) + 64 * (v % 1024)

/-- The specification sentence of C3 reads the payload length from the low
10 bits of the header word (`headerWord & 0x3FF`): reference definition
from the spec words, to be compared with the source. -/
def specPayLenLow10 (headerWord : ℕ) : ℕ := headerWord &&& 0x3FF

/-- The payload length `getPacket` extracts from the two header bytes: the
`pay_len` bitfield, i.e. bits 6-15 of the little-endian header word. -/
def payLenOf (b1 b2 : ℕ) : ℕ := ((b1 ||| b2 <<< 8) >>> 6) % 1024

/-- Counterexample to C3 as stated: for the well-formed frame
`encodeFrame 0 0 5 []` the header word is `0x40`, whose low 10 bits are 64,
yet `getPacket` uses `pay_len = 1` — it returns 1 after consuming exactly
the 6-byte frame instead of demanding `64 + 2` further bytes. -/
theorem getPacket_payLen_not_low10 :
    (encodeFrame 0 0 5 []).getD 1 0 ||| ((encodeFrame 0 0 5 []).getD 2 0) <<< 8 = 0x40 ∧
    specPayLenLow10 0x40 = 64 ∧
    getPacket (encodeFrame 0 0 5 []) = some ⟨1, encodeFrame 0 0 5 [], []⟩ ∧
    ((1 : Int) ≠ 64) := by
  refine ⟨by decide, by decide, ?_, by decide⟩
  decide

theorem getPacket_minus2 (b1 b2 : ℕ) (rest : List ℕ)
    (h : payLenOf b1 b2 = 0) :
    getPacket (STARTBIT :: b1 :: b2 :: rest) = some ⟨-2, [STARTBIT, b1, b2], rest⟩ := by
  unfold payLenOf at h
  simp only [getPacket]
  rw [if_neg (by simp)]
  rw [if_pos (Or.inl (by omega))]

/-- C3 (amended): the payload length `getPacket` uses both to size the
remainder of the read and as its success return value is the `pay_len`
bitfield = bits 6-15 of the little-endian header word,
`((b1 | b2 << 8) >> 6) & 0x3FF` — not the low 10 bits. -/
theorem getPacket_uses_bits6to15 (b1 b2 : ℕ) (rest : List ℕ)
    (h1 : 1 ≤ payLenOf b1 b2)
    (h2 : payLenOf b1 b2 + 2 ≤ rest.length) :
    ∃ g : GPOut, getPacket (STARTBIT :: b1 :: b2 :: rest) = some g ∧
      g.written.length = payLenOf b1 b2 + 5 ∧
      g.rest = rest.drop (payLenOf b1 b2 + 2) ∧
      (g.ret = ((payLenOf b1 b2 : ℕ) : Int) ∨ g.ret = -3) := by
  unfold payLenOf at h1 h2
  have hbound : ((b1 ||| b2 <<< 8) >>> 6) % 1024 < 1024 := Nat.mod_lt _ (by norm_num)
  simp only [getPacket]
  rw [if_neg (by simp)]
  rw [if_neg (by unfold MAX_RESPONSE_SIZE; omega)]
  rw [if_pos h2]
  simp only [payLenOf]
  split
  · refine ⟨_, rfl, ?_, rfl, Or.inl rfl⟩
    simp [List.length_take]
    omega
  · refine ⟨_, rfl, ?_, rfl, Or.inr rfl⟩
    simp [List.length_take]
    omega

/-- Witness for the amended C3 at concrete header bytes `0x40 0x00`
(`pay_len = 1`). -/
theorem getPacket_uses_bits6to15_witness :
    1 ≤ payLenOf 0x40 0 ∧ payLenOf 0x40 0 + 2 ≤ ([5, 0, 0] : List ℕ).length ∧
    ∃ g : GPOut, getPacket (STARTBIT :: 0x40 :: 0 :: [5, 0, 0]) = some g ∧
      g.written.length = payLenOf 0x40 0 + 5 ∧
      g.rest = ([5, 0, 0] : List ℕ).drop (payLenOf 0x40 0 + 2) ∧
      (g.ret = ((payLenOf 0x40 0 : ℕ) : Int) ∨ g.ret = -3) :=
  ⟨by decide, by decide,
    getPacket_uses_bits6to15 0x40 0 [5, 0, 0] (by decide) (by decide)⟩

/-- C8: the length-range check of `getPacket` (line 76).  A header whose
`pay_len` field encodes 0 is rejected with -2; a header built from the
field value `MAX_RESPONSE_SIZE - 4 = 1024` (which truncates to 0 in the
10-bit field) is likewise rejected with -2; a well-formed frame with
`pay_len = MAX_RESPONSE_SIZE - 5 = 1023` passes the check, proceeds to
checksum verification and succeeds; and the check rejects exactly the
headers whose `pay_len` field is 0. -/
theorem getPacket_length_boundaries (rw reserved cmd : ℕ) (rest : List ℕ) :
    getPacket (STARTBIT :: headerWordFor rw reserved 0 % 256 ::
        (headerWordFor rw reserved 0 >>> 8) % 256 :: rest)
      = some ⟨-2, [STARTBIT, headerWordFor rw reserved 0 % 256,
                   (headerWordFor rw reserved 0 >>> 8) % 256], rest⟩ ∧
    getPacket (STARTBIT :: headerWordFor rw reserved (MAX_RESPONSE_SIZE - 4) % 256 ::
        (headerWordFor rw reserved (MAX_RESPONSE_SIZE - 4) >>> 8) % 256 :: rest)
      = some ⟨-2, [STARTBIT, headerWordFor rw reserved (MAX_RESPONSE_SIZE - 4) % 256,
                   (headerWordFor rw reserved (MAX_RESPONSE_SIZE - 4) >>> 8) % 256], rest⟩ ∧
    getPacket (encodeFrame rw reserved cmd (List.replicate 1022 0))
      = some ⟨((1 + (List.replicate (1022 : ℕ) (0 : ℕ)).length : ℕ) : Int),
              encodeFrame rw reserved cmd (List.replicate 1022 0), []⟩ ∧
    (∀ b1 b2 : ℕ, (payLenOf b1 b2 < 1 ∨ MAX_RESPONSE_SIZE - 5 < payLenOf b1 b2)
      ↔ payLenOf b1 b2 = 0) := by
  have hflat : ∀ v : ℕ, payLenOf (headerWordFor rw reserved v % 256)
      ((headerWordFor rw reserved v >>> 8) % 256) = (v % 1024 : ℕ) % 1024 := by
    intro v
    unfold payLenOf headerWordFor
    have hsr : rw % 2 + 2 * (reserved % 32) + 64 * (v % 1024) < 65536 := by omega
    have hb2 : ((rw % 2 + 2 * (reserved % 32) + 64 * (v % 1024)) >>> 8) % 256
        = (rw % 2 + 2 * (reserved % 32) + 64 * (v % 1024)) >>> 8 := by
      apply Nat.mod_eq_of_lt
      rw [Nat.shiftRight_eq_div_pow]
      omega
    rw [hb2, lo_hi_or, Nat.shiftRight_eq_div_pow]
    have h64 : (2 : ℕ) ^ 6 = 64 := by norm_num
    rw [h64]
    omega
  refine ⟨?_, ?_, ?_, ?_⟩
  · exact getPacket_minus2 _ _ rest (by rw [hflat 0])
  · exact getPacket_minus2 _ _ rest (by rw [hflat (MAX_RESPONSE_SIZE - 4)]; decide)
  · exact getPacket_encodeFrame rw reserved cmd (List.replicate 1022 0)
      (by rw [List.length_replicate])
  · intro b1 b2
    have hbound : payLenOf b1 b2 < 1024 := Nat.mod_lt _ (by norm_num)
    unfold MAX_RESPONSE_SIZE
    omega

/-! ## The transaction loop (`readCommand`, `lightwareSF40.c` lines 100-159)

The environment is modelled as a schedule: `sched.headD []` is the burst of
bytes that arrives in the serial buffer before poll iteration `i`
(`canReadByte` is true exactly when the buffer is non-empty); bytes a
`getPacket` call leaves unconsumed stay queued for later iterations.  The
loop polls up to 10000 times (`cycles_Waited > 10000` fails at the 10001st
check, line 134) and is modelled with that fuel. -/

/-- Read byte `i` of the zero-initialised 220-byte `receivedPayload`
buffer, of which `written` is the prefix written by `getPacket`. -/
def readBuf (written : List ℕ) (i : ℕ) : ℕ := written.getD i 0

/-- Result of `readCommand`: the `int16_t` return value and the bytes the
final iteration copies into the caller's `payload` buffer (lines 146-151
copy `receivedLenght + 5` bytes). -/
structure RCOut where
  ret : Int
  out : List ℕ
deriving DecidableEq

/-- The polling loop of `readCommand` (lines 128-157).  Each iteration:
append the newly arrived burst to the serial buffer; if a byte can be read,
run `getPacket` (line 141, `receivedLenght` is the `uint16_t` image of its
return value, otherwise it stays 0 and the buffer stays zero); then if
`receivedPayload[3] == packet[3]` (line 142) copy `receivedLenght + 5`
buffer bytes out and return `receivedLenght`; when fuel runs out return -1
(lines 134-137).  `none` models `getPacket` blocking forever on an
exhausted byte source. -/
def readCommandLoop (cmd : ℕ) : List (List ℕ) → List ℕ → ℕ → Option RCOut
  | _, _, 0 => some ⟨-1, []⟩
  | sched, queue, fuel + 1 =>
    let q := queue ++ sched.headD []
    if q = [] then
      if readBuf [] 3 = cmd then
        some ⟨int16OfNat 0, (List.range (0 + 5)).map (readBuf [])⟩
      else readCommandLoop cmd sched.tail [] fuel
    else
      match getPacket q with
      | none => none
      | some g =>
        let len := uint16OfInt g.ret
        if readBuf g.written 3 = cmd then
          some ⟨int16OfNat len, (List.range (len + 5)).map (readBuf g.written)⟩
        else readCommandLoop cmd sched.tail g.rest fuel

/-- `readCommand(command, payload)`: flush the buffer, send the request
frame, then poll with a budget of 10000 iterations. -/
def readCommand (cmd : ℕ) (sched : List (List ℕ)) : Option RCOut :=
  readCommandLoop cmd sched [] 10000

/-! ### Step lemmas for the loop -/

theorem loop_step_empty_nomatch (cmd : ℕ) (sched : List (List ℕ)) (queue : List ℕ)
    (fuel : ℕ) (hq : queue ++ sched.headD [] = []) (hc : cmd ≠ 0) :
    readCommandLoop cmd sched queue (fuel + 1) = readCommandLoop cmd sched.tail [] fuel := by
  simp only [readCommandLoop, hq, if_true]
  have h0 : readBuf [] 3 = 0 := rfl
  rw [h0, if_neg fun h => hc h.symm]

theorem loop_step_packet_nomatch (cmd : ℕ) (sched : List (List ℕ)) (queue : List ℕ)
    (fuel : ℕ) (g : GPOut)
    (hg : getPacket (queue ++ sched.headD []) = some g)
    (hng : readBuf g.written 3 ≠ cmd) :
    readCommandLoop cmd sched queue (fuel + 1) = readCommandLoop cmd sched.tail g.rest fuel := by
  have hq : queue ++ sched.headD [] ≠ [] := by
    intro h
    rw [h] at hg
    simp [getPacket] at hg
  simp only [readCommandLoop]
  rw [if_neg hq, hg]
  simp only [if_neg hng]

theorem loop_step_packet_match (cmd : ℕ) (sched : List (List ℕ)) (queue : List ℕ)
    (fuel : ℕ) (g : GPOut)
    (hg : getPacket (queue ++ sched.headD []) = some g)
    (hm : readBuf g.written 3 = cmd) :
    readCommandLoop cmd sched queue (fuel + 1) =
      some ⟨int16OfNat (uint16OfInt g.ret),
            (List.range (uint16OfInt g.ret + 5)).map (readBuf g.written)⟩ := by
  have hq : queue ++ sched.headD [] ≠ [] := by
    intro h
    rw [h] at hg
    simp [getPacket] at hg
  simp only [readCommandLoop]
  rw [if_neg hq, hg]
  simp only [if_pos hm]

theorem loop_gaps (cmd : ℕ) (hc : cmd ≠ 0) (k : ℕ) :
    ∀ (fuel : ℕ) (tailSched : List (List ℕ)),
      readCommandLoop cmd (List.replicate k [] ++ tailSched) [] (k + fuel) =
      readCommandLoop cmd tailSched [] fuel := by
  induction k with
  | zero => intro fuel tailSched; simp
  | succ n ih =>
    intro fuel tailSched
    have hstep : (n + 1) + fuel = (n + fuel) + 1 := by omega
    rw [hstep, List.replicate_succ, List.cons_append]
    rw [loop_step_empty_nomatch cmd _ [] (n + fuel) (by simp) hc]
    exact ih fuel tailSched

/-! ### Frame helper lemmas -/

theorem encodeFrame_getD3 (rw reserved cmd : ℕ) (pl : List ℕ) :
    (encodeFrame rw reserved cmd pl).getD 3 0 = cmd := rfl

theorem encodeFrame_length (rw reserved cmd : ℕ) (pl : List ℕ) :
    (encodeFrame rw reserved cmd pl).length = pl.length + 6 := by
  unfold encodeFrame
  simp only [List.length_append, List.length_cons, List.length_nil]

theorem int16OfNat_small (n : ℕ) (h : n < 32768) : int16OfNat n = (n : Int) := by
  unfold int16OfNat
  have h2 : n % 65536 = n := Nat.mod_eq_of_lt (by omega)
  rw [h2, if_pos h]

theorem loop_silent (cmd : ℕ) (hc : cmd ≠ 0) (fuel : ℕ) :
    readCommandLoop cmd [] [] fuel = some ⟨-1, []⟩ := by
  induction fuel with
  | zero => rfl
  | succ n ih =>
    rw [loop_step_empty_nomatch cmd [] [] n (by simp) hc]
    exact ih

/-- C5 (amended): for every requested command id other than 0, a byte
source that never produces data makes `readCommand` poll through its whole
10000-iteration budget and return -1, copying nothing; it never returns
success.  (For command id 0 the claim fails, see the counterexample.) -/
theorem readCommand_silent_source_times_out (cmd : ℕ) (h1 : 1 ≤ cmd) :
    readCommand cmd [] = some ⟨-1, []⟩ :=
  loop_silent cmd (by omega) 10000

/-- Witness for the amended C5 at command id 3. -/
theorem readCommand_silent_source_times_out_witness :
    1 ≤ (3 : ℕ) ∧ readCommand 3 [] = some ⟨-1, []⟩ :=
  ⟨by norm_num, readCommand_silent_source_times_out 3 (by norm_num)⟩

/-- Counterexample to C5 as stated: for requested command id 0 and a byte
source that never produces data, `readCommand` returns 0 (success, with a
bogus all-zero 5-byte result) on its very first poll iteration, because
the zero-initialised receive buffer satisfies
`receivedPayload[3] == packet[3]` — it does not return -1. -/
theorem readCommand_cmd0_no_timeout :
    readCommand 0 [] = some ⟨0, [0, 0, 0, 0, 0]⟩ ∧ ((0 : Int) ≠ -1) := by
  constructor
  · rfl
  · decide

/-- C4 (amended): for every requested command id in 1..255, a decoded
frame with a different command id is discarded (it is never the
transaction result) and a later decoded frame with the matching command id
is returned as the transaction result — its `pay_len` and its full frame
bytes — even across poll iterations in which no byte is available.  (For
command id 0 the claim fails, see the counterexample.) -/
theorem readCommand_correlates (cmd d rw1 res1 rw2 res2 k : ℕ)
    (plA plB : List ℕ)
    (h1 : 1 ≤ cmd) (h2 : cmd < 256) (hd : d ≠ cmd)
    (hlenA : plA.length ≤ 1022) (hlenB : plB.length ≤ 1022)
    (hk : k + 2 ≤ 10000) :
    readCommand cmd
      ([encodeFrame rw1 res1 d plA] ++ List.replicate k [] ++ [encodeFrame rw2 res2 cmd plB])
      = some ⟨((1 + plB.length : ℕ) : Int), encodeFrame rw2 res2 cmd plB⟩ := by
  unfold readCommand
  have h10000 : (10000 : ℕ) = 9999 + 1 := by norm_num
  rw [h10000]
  have hheadA : ([] : List ℕ) ++
      (([encodeFrame rw1 res1 d plA] ++ List.replicate k [] ++
        [encodeFrame rw2 res2 cmd plB]).headD []) = encodeFrame rw1 res1 d plA := by
    simp
  have hgA : getPacket (([] : List ℕ) ++
      (([encodeFrame rw1 res1 d plA] ++ List.replicate k [] ++
        [encodeFrame rw2 res2 cmd plB]).headD []))
      = some ⟨((1 + plA.length : ℕ) : Int), encodeFrame rw1 res1 d plA, []⟩ := by
    rw [hheadA]
    exact getPacket_encodeFrame rw1 res1 d plA hlenA
  rw [loop_step_packet_nomatch cmd _ [] 9999 _ hgA
    (by unfold readBuf; rw [encodeFrame_getD3]; exact hd)]
  have htail : ([encodeFrame rw1 res1 d plA] ++ List.replicate k [] ++
      [encodeFrame rw2 res2 cmd plB]).tail
      = List.replicate k [] ++ [encodeFrame rw2 res2 cmd plB] := by
    simp
  rw [htail]
  have h9999 : (9999 : ℕ) = k + (9999 - k) := by omega
  rw [h9999, loop_gaps cmd (by omega) k (9999 - k) [encodeFrame rw2 res2 cmd plB]]
  have hfin : (9999 - k : ℕ) = (9998 - k) + 1 := by omega
  rw [hfin]
  have hheadB : ([] : List ℕ) ++ (([encodeFrame rw2 res2 cmd plB] : List (List ℕ)).headD [])
      = encodeFrame rw2 res2 cmd plB := by simp
  have hgB : getPacket (([] : List ℕ) ++
      (([encodeFrame rw2 res2 cmd plB] : List (List ℕ)).headD []))
      = some ⟨((1 + plB.length : ℕ) : Int), encodeFrame rw2 res2 cmd plB, []⟩ := by
    rw [hheadB]
    exact getPacket_encodeFrame rw2 res2 cmd plB hlenB
  rw [loop_step_packet_match cmd _ [] (9998 - k) _ hgB
    (by unfold readBuf; rw [encodeFrame_getD3])]
  have hu : uint16OfInt ((1 + plB.length : ℕ) : Int) = 1 + plB.length :=
    uint16OfInt_ofNat _ (by omega)
  rw [hu, int16OfNat_small _ (by omega)]
  have hout : (List.range (1 + plB.length + 5)).map (readBuf (encodeFrame rw2 res2 cmd plB))
      = encodeFrame rw2 res2 cmd plB := by
    have hlenf : 1 + plB.length + 5 = (encodeFrame rw2 res2 cmd plB).length := by
      rw [encodeFrame_length]
      omega
    rw [hlenf]
    exact rangeMap_getD_self _
  rw [hout]

/-- Witness for the amended C4: command 2 requested, a frame for command 9
decoded first and discarded, one empty poll, then the matching frame
returned. -/
theorem readCommand_correlates_witness :
    1 ≤ (2 : ℕ) ∧ (2 : ℕ) < 256 ∧ (9 : ℕ) ≠ 2 ∧
    ([17] : List ℕ).length ≤ 1022 ∧ ([34] : List ℕ).length ≤ 1022 ∧
    (1 : ℕ) + 2 ≤ 10000 ∧
    readCommand 2 ([encodeFrame 1 0 9 [17]] ++ List.replicate 1 [] ++ [encodeFrame 1 0 2 [34]])
      = some ⟨((1 + ([34] : List ℕ).length : ℕ) : Int), encodeFrame 1 0 2 [34]⟩ :=
  ⟨by norm_num, by norm_num, by norm_num, by decide, by decide, by norm_num,
    readCommand_correlates 2 9 1 0 1 0 1 [17] [34] (by norm_num) (by norm_num)
      (by norm_num) (by decide) (by decide) (by norm_num)⟩

/-- Counterexample to C4 as stated (command id 0): the schedule delivers a
well-formed frame for command 5 (correctly discarded), then one poll
iteration with no data, then a well-formed frame for the requested command
id 0.  The transaction does not return the matching frame: the empty poll
iteration already "matches" the zero-initialised receive buffer and
returns a bogus all-zero result. -/
theorem readCommand_cmd0_counterexample :
    getPacket (encodeFrame 1 0 0 [34]) = some ⟨2, encodeFrame 1 0 0 [34], []⟩ ∧
    (encodeFrame 1 0 0 [34]).getD 3 0 = 0 ∧
    readCommand 0 [encodeFrame 1 0 5 [17], [], encodeFrame 1 0 0 [34]]
      = some ⟨0, [0, 0, 0, 0, 0]⟩ ∧
    (([0, 0, 0, 0, 0] : List ℕ) ≠ encodeFrame 1 0 0 [34]) := by
  refine ⟨by decide, by decide, ?_, by decide⟩
  decide

/-- A frame for command 5 (`pay_len = 1`) whose trailing checksum bytes
`DE AD` do not match `createCRC` over its first four bytes (53205). -/
def badChecksumFrame : List ℕ := [0xAA, 0x40, 0x00, 0x05, 0xDE, 0xAD]

/-- The bytes `readCommand` copies into the caller's buffer when it
accepts the bad-checksum frame: `receivedLenght + 5` bytes where
`receivedLenght = (uint16_t)(-3) = 65533` (line 146), read back from the
220-byte zero-initialised local buffer holding the 6 malformed-frame
bytes. -/
def badChecksumCopiedOut : List ℕ :=
  (List.range (uint16OfInt (-3) + 5)).map (readBuf badChecksumFrame)

/-- C6 (code bug evidence): a packet attempt that fails checksum
verification (`getPacket` returns -3) for a frame whose command id equals
the requested one is NOT discarded: `readCommand` accepts it at line 142
(`receivedPayload[3] == packet[3]`), returns -3 (the error value truncated
through `uint16_t receivedLenght` and back through the `int16_t` return),
and copies `(uint16_t)(-3) + 5 = 65538` bytes — including the malformed
frame's first bytes — into the caller's buffer instead of continuing to
poll. -/
theorem readCommand_checksum_error_not_discarded :
    getPacket badChecksumFrame = some ⟨-3, badChecksumFrame, []⟩ ∧
    readCommand 5 [badChecksumFrame] = some ⟨-3, badChecksumCopiedOut⟩ ∧
    badChecksumCopiedOut.length = 65538 ∧
    badChecksumCopiedOut.getD 3 0 = 5 := by
  refine ⟨by decide, ?_, ?_, ?_⟩
  · unfold readCommand
    have h10000 : (10000 : ℕ) = 9999 + 1 := by norm_num
    rw [h10000]
    have hg : getPacket (([] : List ℕ) ++
        (([badChecksumFrame] : List (List ℕ)).headD []))
        = some ⟨-3, badChecksumFrame, []⟩ := by decide
    rw [loop_step_packet_match 5 _ [] 9999 ⟨-3, badChecksumFrame, []⟩ hg (by decide)]
    rw [show ((⟨-3, badChecksumFrame, []⟩ : GPOut)).ret = (-3 : Int) from rfl,
        show ((⟨-3, badChecksumFrame, []⟩ : GPOut)).written = badChecksumFrame from rfl]
    rw [show int16OfNat (uint16OfInt ((-3 : Int))) = (-3 : Int) from by decide]
    unfold badChecksumCopiedOut
    exact rfl
  · unfold badChecksumCopiedOut
    rw [List.length_map, List.length_range]
    decide
  · unfold badChecksumCopiedOut
    rw [show uint16OfInt (-3) + 5 = 65538 from by decide]
    rw [List.getD_eq_getElem _ 0 (by rw [List.length_map, List.length_range]; norm_num)]
    simp only [List.getElem_map, List.getElem_range]
    decide

/-! ## The stream decoder (`getStream`, `lightwareSF40.c` lines 450-469) -/

/-- The decoded stream packet (`streamOutput_t`, `lightwareSF40.h` lines
84-94).  The 200-element `pointDistances` array is modelled as a total
function so that the loop at lines 464-466, which writes
`outputData->pointDistances[i]` for every `i < pointCount` without any
bounds check, can be stated at every index it touches. -/
structure StreamOut where
  alarmState : ℕ
  pps : ℕ
  forwardOffset : Int
  motorVoltage : Int
  revolutionIndex : ℕ
  pointTotal : ℕ
  pointCount : ℕ
  pointStartIndex : ℕ
  pointDistances : ℕ → Int

/-- Read `payload[i]` of `getStream`'s local 420-byte buffer: the bytes
`getPacket` wrote, and otherwise the uninitialised stack contents `junk`
(the array at line 451 is not initialised). -/
def streamRd (junk : ℕ → ℕ) (written : List ℕ) (i : ℕ) : ℕ :=
  if i < written.length then written.getD i 0 else junk i

/-- `getStream(outputData)`: one `getPacket` call; -1 when it returns a
value ≤ 0 (line 452); -2 when `payload[3] != LIDAR_DISTANCE_OUTPUT`
(line 453); otherwise decode the fixed offsets (lines 455-462) and copy
`pointCount` 16-bit distances from offsets `i*2+18 / i*2+19` (lines
464-466) and return 0.  The caller's structure `o` is only replaced on the
success path. -/
def getStream (junk : ℕ → ℕ) (src : List ℕ) (o : StreamOut) : Option (Int × StreamOut) :=
  match getPacket src with
  | none => none
  | some g =>
    if g.ret ≤ 0 then some (-1, o)
    else if streamRd junk g.written 3 ≠ LIDAR_DISTANCE_OUTPUT then some (-2, o)
    else some (0,
      { alarmState := streamRd junk g.written 4
        pps := ((streamRd junk g.written 6 <<< 8) ||| streamRd junk g.written 5) % 65536
        forwardOffset :=
          int16OfNat ((streamRd junk g.written 8 <<< 8) ||| streamRd junk g.written 7)
        motorVoltage :=
          int16OfNat ((streamRd junk g.written 10 <<< 8) ||| streamRd junk g.written 9)
        revolutionIndex := streamRd junk g.written 11
        pointTotal := ((streamRd junk g.written 13 <<< 8) ||| streamRd junk g.written 12) % 65536
        pointCount := ((streamRd junk g.written 15 <<< 8) ||| streamRd junk g.written 14) % 65536
        pointStartIndex :=
          ((streamRd junk g.written 17 <<< 8) ||| streamRd junk g.written 16) % 65536
        pointDistances := fun i =>
          if i < ((streamRd junk g.written 15 <<< 8) ||| streamRd junk g.written 14) % 65536
          then int16OfNat ((streamRd junk g.written (i * 2 + 19) <<< 8) |||
                streamRd junk g.written (i * 2 + 18))
          else o.pointDistances i })

/-- An all-zero `streamOutput_t` destination. -/
def zeroStreamOut : StreamOut := ⟨0, 0, 0, 0, 0, 0, 0, 0, fun _ => 0⟩

/-- C10: whenever `getStream` returns an error — -1 for a failed or empty
packet read, -2 for a decoded frame whose command id is not the
distance-output sentinel 48 — the caller's destination structure is
returned completely unmodified; and every non-zero return is one of those
two values. -/
theorem getStream_error_leaves_output (junk : ℕ → ℕ) (src : List ℕ)
    (o : StreamOut) (r : Int) (out : StreamOut)
    (h : getStream junk src o = some (r, out)) (hr : r ≠ 0) :
    out = o ∧ (r = -1 ∨ r = -2) := by
  cases hgp : getPacket src with
  | none =>
    unfold getStream at h
    rw [hgp] at h
    exact absurd h (by simp)
  | some g =>
    have hred : getStream junk src o =
        (if g.ret ≤ 0 then some (-1, o)
         else if streamRd junk g.written 3 ≠ LIDAR_DISTANCE_OUTPUT then some (-2, o)
         else some (0,
          { alarmState := streamRd junk g.written 4
            pps := ((streamRd junk g.written 6 <<< 8) ||| streamRd junk g.written 5) % 65536
            forwardOffset :=
              int16OfNat ((streamRd junk g.written 8 <<< 8) ||| streamRd junk g.written 7)
            motorVoltage :=
              int16OfNat ((streamRd junk g.written 10 <<< 8) ||| streamRd junk g.written 9)
            revolutionIndex := streamRd junk g.written 11
            pointTotal :=
              ((streamRd junk g.written 13 <<< 8) ||| streamRd junk g.written 12) % 65536
            pointCount :=
              ((streamRd junk g.written 15 <<< 8) ||| streamRd junk g.written 14) % 65536
            pointStartIndex :=
              ((streamRd junk g.written 17 <<< 8) ||| streamRd junk g.written 16) % 65536
            pointDistances := fun i =>
              if i < ((streamRd junk g.written 15 <<< 8) ||| streamRd junk g.written 14) % 65536
              then int16OfNat ((streamRd junk g.written (i * 2 + 19) <<< 8) |||
                    streamRd junk g.written (i * 2 + 18))
              else o.pointDistances i })) := by
      unfold getStream
      rw [hgp]
    rw [hred] at h
    by_cases h1 : g.ret ≤ 0
    · rw [if_pos h1] at h
      injection h with hh
      rw [Prod.mk.injEq] at hh
      exact ⟨hh.2.symm, Or.inl hh.1.symm⟩
    · rw [if_neg h1] at h
      by_cases h2 : streamRd junk g.written 3 ≠ LIDAR_DISTANCE_OUTPUT
      · rw [if_pos h2] at h
        injection h with hh
        rw [Prod.mk.injEq] at hh
        exact ⟨hh.2.symm, Or.inr hh.1.symm⟩
      · rw [if_neg h2] at h
        injection h with hh
        rw [Prod.mk.injEq] at hh
        exact absurd hh.1.symm hr

/-- Witness for C10: a source whose first byte is not the start marker
makes `getStream` return -1 and hand back the destination untouched. -/
theorem getStream_error_leaves_output_witness :
    zeroStreamOut = zeroStreamOut ∧ ((-1 : Int) = -1 ∨ (-1 : Int) = -2) :=
  getStream_error_leaves_output (fun _ => 0) [0, 1, 2] zeroStreamOut (-1) zeroStreamOut
    rfl (by decide)

/-- Payload data of a distance-output stream frame whose `pointCount`
field (little-endian at payload offsets 10-11, `0xC9 0x00`) claims 201
points: the 14 fixed field bytes only (`pointTotal` also 201). -/
def overflowStreamPayload : List ℕ :=
  [0, 0, 0, 0, 0, 0, 0, 0, 0xC9, 0, 0xC9, 0, 0, 0]

/-- The full wire frame carrying `overflowStreamPayload` under command id
48 (`LIDAR_DISTANCE_OUTPUT`), with a valid checksum. -/
def overflowStreamFrame : List ℕ := encodeFrame 0 0 LIDAR_DISTANCE_OUTPUT overflowStreamPayload

set_option maxRecDepth 2000 in
/-- C7 (code bug evidence): `getStream` performs no validation of the
decoded `pointCount` against the 200-element `pointDistances` capacity
before copying.  On a valid frame whose header claims `pointCount = 201`
it returns 0 (success, no overflow error) and the copy loop at lines
464-466 runs for all 201 indices: it writes `pointDistances[200]` — one
past the last valid index of `int16_t pointDistances[200]` — with a value
assembled from uninitialised buffer bytes (modelled by `junk = 7`:
`int16OfNat (7 <<< 8 ||| 7) = 1799`), where the destination previously
held 0. -/
theorem getStream_no_pointCount_bound_check :
    (getStream (fun _ => 7) overflowStreamFrame zeroStreamOut).map Prod.fst = some 0 ∧
    (getStream (fun _ => 7) overflowStreamFrame zeroStreamOut).map
        (fun p => p.2.pointCount) = some 201 ∧
    POINT_DISTANCES_CAPACITY < 201 ∧
    (getStream (fun _ => 7) overflowStreamFrame zeroStreamOut).map
        (fun p => p.2.pointDistances POINT_DISTANCES_CAPACITY) = some 1799 ∧
    zeroStreamOut.pointDistances POINT_DISTANCES_CAPACITY = 0 := by
  refine ⟨?_, ?_, by decide, ?_, rfl⟩
  · decide
  · decide
  · decide

/-! ## The voltage payload extraction (`getVoltage`, lines 338-345) -/

/-- The integer argument `getVoltage` passes to the `LIDAR_VOLTAGE`
conversion macro (lines 343-344): the source uses the logical operator
`||` between the shifted payload bytes, so the expression is
`((payload[7]<<24 || payload[6]<<16) || payload[5]<<8) || payload[4]`,
which evaluates to 1 when any operand is non-zero and 0 otherwise.
`p4 .. p7` are the response payload bytes at offsets 0-3 (buffer bytes
4-7). -/
def getVoltage_arg (p4 p5 p6 p7 : ℕ) : ℕ :=
  if p7 <<< 24 ≠ 0 ∨ p6 <<< 16 ≠ 0 ∨ p5 <<< 8 ≠ 0 ∨ p4 ≠ 0 then 1 else 0

/-- Reference definition from the specification for C9: the IncomingVoltage
response payload is interpreted as a 4-byte little-endian unsigned integer
from payload offsets 0-3. -/
def specVoltageCountsLE (p4 p5 p6 p7 : ℕ) : ℕ :=
  p4 + 256 * p5 + 65536 * p6 + 16777216 * p7

/-- C9 (code bug evidence): for the payload bytes `10 27 00 00`
(little-endian 10000), the little-endian assembly the specification
prescribes is 10000, but the value the source actually passes to the
conversion formula is 1, because lines 343-344 use the logical `||`
instead of the bitwise `|`; moreover the source expression never exceeds 1
for any payload whatsoever. -/
theorem getVoltage_arg_not_le_counts :
    getVoltage_arg 0x10 0x27 0 0 = 1 ∧
    specVoltageCountsLE 0x10 0x27 0 0 = 10000 ∧
    getVoltage_arg 0x10 0x27 0 0 ≠ specVoltageCountsLE 0x10 0x27 0 0 ∧
    ∀ p4 p5 p6 p7 : ℕ, getVoltage_arg p4 p5 p6 p7 ≤ 1 := by
  refine ⟨by decide, by decide, by decide, ?_⟩
  intro p4 p5 p6 p7
  unfold getVoltage_arg
  split <;> omega
